import Mathlib

/-!
Verification of the 0rb-aether brain core (intent classification, the
confidence-gated authorization decision, and the agent-swarm arbitration
engine) against its natural-language specification.

The Rust source (core/brain/src/{intent.rs, api.rs, agent_swarm.rs, main.rs})
is shallowly embedded below:

* `f64` values are modelled as exact rationals (`ℚ`); the one place the code
  truncates a float to an integer (`as u64` in `update_performance`) is
  modelled with `Nat.floor`.
* `Uuid` identities are opaque tokens, modelled as `ℕ`; `Uuid::new_v4()` is
  nondeterministic, so freshly generated ids are supplied by the caller.
* `HashMap`s are modelled as association lists; iteration order of a hash map
  is arbitrary in Rust, and the list order plays that role here.
* The agent-invocation and critique-scoring collaborator calls (`invoke_agent`,
  `critique_response`) are injected as function parameters; the source's
  stub implementations are also embedded for concrete runs.
* Wall-clock latency measurement is modelled by an `elapsed` parameter.
* The `regex` patterns of the classifier are alternations of literal words
  under `(?i)`; they are modelled as keyword lists with case-insensitive,
  leftmost-first, non-overlapping matching, exactly the regex crate's
  default semantics for such patterns.
-/

/-! ## Classifier (intent.rs) -/

/-- `IntentCategory` from intent.rs. -/
inductive IntentCategory where
  | System
  | Network
  | Agent
  | Developer
  | Security
  | Query
  | Unknown
deriving DecidableEq, Repr

/-- Word count of Rust's `str::split_whitespace().count()`: maximal runs of
non-whitespace characters. The boolean argument records whether the scan is
currently inside a word. -/
def countWordsAux : Bool → List Char → Nat
  | _, [] => 0
  | inWord, c :: rest =>
    if c.isWhitespace then countWordsAux false rest
    else (if inWord then 0 else 1) + countWordsAux true rest

/-- Number of words in a string (`split_whitespace().count()`). -/
def wordCount (s : String) : Nat := countWordsAux false s.data

/-- Non-overlapping, leftmost-first scan for matches of an alternation of
literal keywords (the semantics of `Regex::find_iter` for the classifier's
patterns). At each position the first keyword (in pattern order) that matches
is taken and the scan resumes after it; the second argument counts characters
still to be skipped because they belong to the previous match. -/
def countMatchesAux (pats : List (List Char)) : List Char → Nat → Nat
  | [], _ => 0
  | _ :: rest, skip + 1 => countMatchesAux pats rest skip
  | c :: rest, 0 =>
    match pats.find? (fun p => List.isPrefixOf p (c :: rest)) with
    | some p => countMatchesAux pats rest (p.length - 1) + 1
    | none => countMatchesAux pats rest 0

/-- Total number of non-overlapping matches in a character list. -/
def countMatchesFrom (pats : List (List Char)) (text : List Char) : Nat :=
  countMatchesAux pats text 0

/-- Case-insensitive match count: `(?i)` is modelled by lowercasing the text
(the keywords are already lowercase). -/
def regexMatchCount (pats : List (List Char)) (text : List Char) : Nat :=
  countMatchesFrom pats (text.map Char.toLower)

/-- `Regex::is_match` for an alternation of literal keywords: true iff at
least one occurrence exists. -/
def regexIsMatch (pats : List (List Char)) (text : List Char) : Bool :=
  decide (0 < regexMatchCount pats text)

/-- One classifier rule: keyword alternation, category, action label, base
confidence (one tuple of `IntentParser::new`'s `patterns`). -/
structure IntentRule where
  keywords : List (List Char)
  category : IntentCategory
  action : String
  base_confidence : ℚ

/-- Keyword alternation from a list of literal words. -/
def kw (l : List String) : List (List Char) := l.map String.data

/-- The ordered rule table of `IntentParser::new` (intent.rs lines 35-69). -/
def intentPatterns : List IntentRule := [
  ⟨kw ["shutdown", "reboot", "restart", "power off"], .System, "system_power", 9/10⟩,
  ⟨kw ["mount", "unmount", "disk", "storage"], .System, "storage_op", 85/100⟩,
  ⟨kw ["connect", "network", "internet", "online", "fetch", "download"], .Network, "network_access", 85/100⟩,
  ⟨kw ["api", "request", "http", "https", "web"], .Network, "web_request", 8/10⟩,
  ⟨kw ["ask", "tell", "chat", "converse", "claude", "gpt", "opus"], .Agent, "agent_invoke", 9/10⟩,
  ⟨kw ["generate", "create", "write", "compose", "draft"], .Agent, "content_gen", 85/100⟩,
  ⟨kw ["code", "compile", "build", "test", "debug", "run"], .Developer, "dev_action", 9/10⟩,
  ⟨kw ["git", "commit", "push", "pull", "branch"], .Developer, "vcs_action", 95/100⟩,
  ⟨kw ["encrypt", "decrypt", "secure", "lock", "unlock"], .Security, "security_op", 9/10⟩,
  ⟨kw ["wipe", "clear", "delete", "destroy", "erase"], .Security, "data_destruction", 95/100⟩,
  ⟨kw ["what", "where", "when", "how", "why", "who", "which", "show", "display", "list"], .Query, "information_query", 7/10⟩]

/-- `IntentParser::calculate_confidence` (intent.rs lines 106-115). -/
def calculate_confidence (text : List Char) (pats : List (List Char)) (base : ℚ) : ℚ :=
  let word_count := countWordsAux false text
  let match_count := regexMatchCount pats text
  let length_factor : ℚ := if word_count > 3 then 1 else 9/10
  let match_factor : ℚ := 1 + ((match_count : ℚ) - 1) * (5/100)
  min (base * length_factor * match_factor) (99/100)

/-- The classified intent. The source's `Intent` also carries a random `id`,
a creation `timestamp` and derived `metadata`; those are nondeterministic or
derived bookkeeping and are not part of any claim, so they are omitted. -/
structure Intent where
  category : IntentCategory
  action : String
  confidence : ℚ
  raw_text : String
deriving DecidableEq, Repr

/-- `IntentParser::parse` (intent.rs lines 74-104): among matching rules keep
the highest adjusted confidence, first-seen winning ties; fall back to
`Unknown`/`"unknown"`/0.3. -/
def IntentParser.parse (text : String) : Intent :=
  let chars := text.data
  let best := intentPatterns.foldl
    (fun best rule =>
      if regexIsMatch rule.keywords chars then
        let confidence := calculate_confidence chars rule.keywords rule.base_confidence
        match best with
        | none => some (rule.category, rule.action, confidence)
        | some b => if confidence > b.2.2 then some (rule.category, rule.action, confidence) else best
      else best)
    (none : Option (IntentCategory × String × ℚ))
  match best with
  | some (c, a, conf) => { category := c, action := a, confidence := conf, raw_text := text }
  | none => { category := .Unknown, action := "unknown", confidence := 3/10, raw_text := text }

/-! ## Authorization gate (api.rs, main.rs) -/

/-- Shared brain state (main.rs `BrainState`); the external `SecureStore`
collaborator is out of scope and omitted. -/
structure BrainState where
  confidence_threshold : ℚ
  network_allowed : Bool
  emergency_triggered : Bool
deriving DecidableEq, Repr

/-- `BrainState::new` (main.rs lines 30-37): default threshold 0.95. -/
def BrainState.new : BrainState :=
  { confidence_threshold := 95/100, network_allowed := false, emergency_triggered := false }

/-- The authorization gate of `handle_parse_intent` (api.rs line 155):
`requires_confirmation = intent.confidence < state.confidence_threshold`. -/
def requiresConfirmation (confidence threshold : ℚ) : Bool :=
  decide (confidence < threshold)

/-- Result record of `handle_parse_intent` (api.rs); the random `intent_id`
and the derived `metadata` are omitted. -/
structure ParseIntentResult where
  category : IntentCategory
  action : String
  confidence : ℚ
  requires_confirmation : Bool
deriving DecidableEq, Repr

/-- `handle_parse_intent` (api.rs lines 136-172), classification plus gate;
the fallible audit-log write is non-blocking and out of scope. -/
def handle_parse_intent (text : String) (st : BrainState) : ParseIntentResult :=
  let intent := IntentParser.parse text
  { category := intent.category
    action := intent.action
    confidence := intent.confidence
    requires_confirmation := requiresConfirmation intent.confidence st.confidence_threshold }

/-! ## Agent swarm (agent_swarm.rs) -/

/-- Agent identity; `Uuid` is an opaque token, modelled as `ℕ`. -/
abbrev Uuid := ℕ

/-- `AgentCapability` from agent_swarm.rs. -/
inductive AgentCapability where
  | CodeGeneration
  | NaturalLanguage
  | DataAnalysis
  | ImageGeneration
  | Reasoning
  | Planning
  | Critique
  | Synthesis
deriving DecidableEq, Repr

/-- `AgentNode` from agent_swarm.rs. -/
structure AgentNode where
  id : Uuid
  name : String
  provider : String
  model : String
  capabilities : List AgentCapability
  strengths : List String
  weaknesses : List String
  confidence_score : ℚ
  avg_response_time_ms : ℕ
  success_rate : ℚ
  cost_per_1k_tokens : ℚ
deriving DecidableEq, Repr

/-- `AgentNode::new` (agent_swarm.rs lines 38-57); the fresh `Uuid::new_v4()`
is supplied by the caller. -/
def AgentNode.new (id : Uuid) (name provider model : String)
    (capabilities : List AgentCapability) : AgentNode :=
  { id, name, provider, model, capabilities
    strengths := []
    weaknesses := []
    confidence_score := 1/2
    avg_response_time_ms := 0
    success_rate := 0
    cost_per_1k_tokens := 0 }

/-- `AgentNode::update_performance` (agent_swarm.rs lines 59-75). The source
truncates the float average back to `u64` with `as u64`; the value is
nonnegative, so this is `Nat.floor`. -/
def AgentNode.update_performance (a : AgentNode) (success : Bool)
    (response_time_ms : ℕ) : AgentNode :=
  let alpha : ℚ := 1/10
  let success_rate := alpha * (if success then 1 else 0) + (1 - alpha) * a.success_rate
  let confidence_score := success_rate
  let avg_response_time_ms :=
    if a.avg_response_time_ms = 0 then response_time_ms
    else ⌊(a.avg_response_time_ms : ℚ) * (9/10) + (response_time_ms : ℚ) * (1/10)⌋₊
  { a with success_rate, confidence_score, avg_response_time_ms }

/-- `AgentResponse` from agent_swarm.rs. -/
structure AgentResponse where
  agent_id : Uuid
  agent_name : String
  response : String
  confidence : ℚ
  reasoning : String
  response_time_ms : ℕ
deriving DecidableEq, Repr

/-- `TournamentResult` from agent_swarm.rs, with `voting_scores` as an
association list. The source stores `consensus_level = 1.0 - variance.sqrt()`
as an `f64`; to keep the state computable this embedding stores the (rational)
population variance of the voting scores and exposes the consensus level as
the derived real number `TournamentResult.consensus_level`; the equivalence of
the cache-write tests is `consensus_gate_iff` below. -/
structure TournamentResult where
  winner : AgentResponse
  all_responses : List AgentResponse
  voting_scores : List (Uuid × ℚ)
  variance : ℚ
deriving DecidableEq, Repr

/-- Population variance of the voting scores (agent_swarm.rs lines 178-180). -/
def votingVariance (scores : List ℚ) : ℚ :=
  let mean := scores.sum / (scores.length : ℚ)
  (scores.map (fun s => (s - mean) ^ 2)).sum / (scores.length : ℚ)

/-- `consensus_level = 1.0 - variance.sqrt()` (agent_swarm.rs line 181). -/
noncomputable def consensusOfVariance (v : ℚ) : ℝ := 1 - Real.sqrt (v : ℝ)

/-- The consensus level of a tournament result. -/
noncomputable def TournamentResult.consensus_level (r : TournamentResult) : ℝ :=
  consensusOfVariance r.variance

/-- `AgentSwarm` from agent_swarm.rs; the two hash maps are association
lists (the list order stands in for the arbitrary hash-map iteration order,
and both maps are keyed uniquely by construction). -/
structure AgentSwarm where
  agents : List AgentNode
  routing_cache : List (String × Uuid)
  tournament_history : List TournamentResult

/-- `AgentSwarm::new`. -/
def AgentSwarm.new : AgentSwarm :=
  { agents := [], routing_cache := [], tournament_history := [] }

/-- `AgentSwarm::register_agent`: keyed insertion into the `agents` map,
replacing any node with the same id. -/
def AgentSwarm.register_agent (s : AgentSwarm) (agent : AgentNode) : AgentSwarm :=
  { s with agents := s.agents.filter (fun a => a.id ≠ agent.id) ++ [agent] }

/-- `AgentSwarm::is_capable` (agent_swarm.rs lines 274-285). -/
def is_capable (agent : AgentNode) (task_type : String) : Bool :=
  match task_type with
  | "code" => agent.capabilities.contains .CodeGeneration
  | "text" => agent.capabilities.contains .NaturalLanguage
  | "data" => agent.capabilities.contains .DataAnalysis
  | "image" => agent.capabilities.contains .ImageGeneration
  | "reasoning" => agent.capabilities.contains .Reasoning
  | "planning" => agent.capabilities.contains .Planning
  | _ => true

/-- The capable-agent set of a task type (the `filter` at agent_swarm.rs
lines 118-120 and 242-243). -/
def AgentSwarm.capableAgents (s : AgentSwarm) (task_type : String) : List AgentNode :=
  s.agents.filter (fun a => is_capable a task_type)

/-- Rust's `Iterator::max_by` (with a total comparison on the keys): folds
left, keeping the later element on ties, so the last maximal element wins. -/
def rustMaxBy {α : Type} (f : α → ℚ) (l : List α) : Option α :=
  l.foldl
    (fun acc x =>
      match acc with
      | none => some x
      | some m => if f m ≤ f x then some x else some m)
    none

/-- `HashMap::insert` on the routing cache, as keyed association-list
insertion. -/
def routingCacheInsert (k : String) (v : Uuid) (c : List (String × Uuid)) :
    List (String × Uuid) :=
  (k, v) :: c.filter (fun p => p.1 ≠ k)

/-- The source's stub `AgentSwarm::invoke_agent` (agent_swarm.rs lines
287-291), used for concrete runs; theorems quantify over arbitrary
invocation collaborators. -/
def invoke_agent (agent : AgentNode) (task : String) : String :=
  "[" ++ agent.name ++ "] Response to: " ++ task

/-- The source's stub `AgentSwarm::critique_response` (agent_swarm.rs lines
293-297): constant score 0.8. -/
def critique_response (_critic_response _target_response : String) : ℚ := 8/10

/-- `AgentSwarm::tournament` (agent_swarm.rs lines 116-203). `invoke` and
`critique` are the external collaborator calls and `elapsed` the measured
wall-clock latency of each invocation. The routing-cache write is guarded by
`votingVariance scores < 9/100`, which equals the source's test
`1.0 - variance.sqrt() > 0.7` by `consensus_gate_iff`. -/
def AgentSwarm.tournament (s : AgentSwarm) (task task_type : String)
    (invoke : AgentNode → String → String) (critique : String → String → ℚ)
    (elapsed : Uuid → ℕ) : Except String (AgentSwarm × TournamentResult) :=
  let capable := s.capableAgents task_type
  if capable.isEmpty then
    .error ("No capable agents found for task type: " ++ task_type)
  else
    let responses : List AgentResponse := capable.map (fun a =>
      { agent_id := a.id
        agent_name := a.name
        response := invoke a task
        confidence := a.confidence_score
        reasoning := "Agent " ++ a.name ++ " proposal"
        response_time_ms := elapsed a.id })
    let voting_scores : List (Uuid × ℚ) := responses.map (fun r =>
      let score := (responses.filter (fun o => o.agent_id ≠ r.agent_id)).foldl
        (fun acc o => acc + critique o.response r.response) 0
      let score := if 1 < responses.length then score / ((responses.length : ℚ) - 1) else score
      (r.agent_id, score))
    match rustMaxBy (fun r => (voting_scores.lookup r.agent_id).getD 0) responses with
    | none => .error "No winner found"
    | some winner =>
      let scores := voting_scores.map Prod.snd
      let variance := votingVariance scores
      let result : TournamentResult :=
        { winner, all_responses := responses, voting_scores, variance }
      let routing_cache :=
        if variance < 9/100 then routingCacheInsert task_type winner.agent_id s.routing_cache
        else s.routing_cache
      let agents := s.agents.map (fun a =>
        if a.id = winner.agent_id then a.update_performance true winner.response_time_ms else a)
      .ok ({ agents, routing_cache, tournament_history := s.tournament_history ++ [result] },
        result)

/-- The latency-discounted quality score of `AgentSwarm::route_task`
(agent_swarm.rs lines 244-247). -/
def routeScore (a : AgentNode) : ℚ :=
  a.confidence_score * (1 - (a.avg_response_time_ms : ℚ) / 10000)

/-- `AgentSwarm::route_task` (agent_swarm.rs lines 235-250): cache first,
otherwise the capable agent with the best score. -/
def AgentSwarm.route_task (s : AgentSwarm) (task_type : String) : Option Uuid :=
  match s.routing_cache.lookup task_type with
  | some agent_id => some agent_id
  | none => (rustMaxBy routeScore (s.capableAgents task_type)).map (fun a => a.id)

/-- Rust's `u64::abs_diff`. -/
def natAbsDiff (a b : ℕ) : ℕ := if a ≤ b then b - a else a - b

/-- `AgentSwarm::has_converged` (agent_swarm.rs lines 299-309): false for
transcripts shorter than 4 entries, else compare the byte lengths of the two
most recent entries. -/
def hasConverged (discussion_log : List String) : Bool :=
  if discussion_log.length < 4 then false
  else
    match discussion_log.reverse with
    | a :: b :: _ => natAbsDiff a.length b.length < 50
    | _ => false

/-- The `{:?}` debug rendering of the transcript used in the discussion
context string (escaping inside entries is not modelled). -/
def debugLog (log : List String) : String :=
  "[" ++ String.intercalate ", " (log.map (fun s => "\"" ++ s ++ "\"")) ++ "]"

/-- One discussion round (the inner `for agent in self.agents.values()` loop
of `AgentSwarm::discussion`, agent_swarm.rs lines 210-223): every agent is
invoked once with the context string, its reply is appended to the transcript
and becomes the current solution. -/
def doRound (agents : List AgentNode) (invoke : AgentNode → String → String)
    (max_rounds round : ℕ) (st : String × List String) : String × List String :=
  agents.foldl
    (fun (st : String × List String) agent =>
      let context := "Round " ++ toString (round + 1) ++ "/" ++ toString max_rounds ++
        "\nCurrent solution: " ++ st.1 ++ "\nPrevious discussion: " ++ debugLog st.2 ++
        "\n\nYour input:"
      let response := invoke agent context
      (response, st.2 ++ [agent.name ++ ": " ++ response]))
    st

/-- The round loop of `AgentSwarm::discussion` (agent_swarm.rs lines
210-229): `for round in 0..max_rounds` with `remaining = max_rounds - round`
rounds still to run; after each round with index `round ≥ 1` the convergence
check may break out early. -/
def discussionAux (agents : List AgentNode) (invoke : AgentNode → String → String)
    (max_rounds : ℕ) : ℕ → ℕ → String × List String → String × List String
  | 0, _, st => st
  | remaining + 1, round, st =>
    let st' := doRound agents invoke max_rounds round st
    if 0 < round ∧ hasConverged st'.2 = true then st'
    else discussionAux agents invoke max_rounds remaining (round + 1) st'

/-- `AgentSwarm::discussion` (agent_swarm.rs lines 206-232), returning the
final solution together with the transcript. -/
def discussion (agents : List AgentNode) (invoke : AgentNode → String → String)
    (max_rounds : ℕ) : String × List String :=
  discussionAux agents invoke max_rounds max_rounds 0 ("", [])

/-- Repeated `update_performance` calls starting from a given node. -/
def applyUpdates (a : AgentNode) (updates : List (Bool × ℕ)) : AgentNode :=
  updates.foldl (fun a u => a.update_performance u.1 u.2) a

/-! ## RPC layer (api.rs) -/

/-- A `serde_json::Value`. -/
inductive Json where
  | null
  | bool (b : Bool)
  | num (q : ℚ)
  | str (s : String)
  | arr (elems : List Json)
  | obj (fields : List (String × Json))

/-- `serde_json::Value::get(key)`: field lookup on objects, `None` on every
other variant. -/
def Json.get : Json → String → Option Json
  | .obj fields, key => (fields.find? (fun f => f.1 == key)).map (fun f => f.2)
  | _, _ => none

/-- `Value::as_bool`. -/
def Json.asBool : Json → Option Bool
  | .bool b => some b
  | _ => none

/-- `Value::as_f64` (JSON numbers are modelled as exact rationals). -/
def Json.asF64 : Json → Option ℚ
  | .num q => some q
  | _ => none

/-- `Value::as_str`. -/
def Json.asStr : Json → Option String
  | .str s => some s
  | _ => none

/-- `RpcError` from api.rs. -/
structure RpcError where
  code : Int
  message : String
deriving DecidableEq, Repr

/-- Result record of `handle_authorize` (api.rs). -/
structure AuthorizeResult where
  authorized : Bool
  reason : String
  audit_id : String
deriving DecidableEq, Repr

/-- `handle_authorize` (api.rs lines 174-214). The random audit id
(`Uuid::new_v4()`) is supplied by the caller; the handler reads the shared
state only to hold the lock and never consults it, so the state does not
appear. -/
def handle_authorize (params : Option Json) (audit_id : String) :
    Except RpcError AuthorizeResult :=
  match params with
  | none => .error ⟨-32602, "Missing params"⟩
  | some p =>
    match (p.get "intent_id").bind Json.asStr with
    | none => .error ⟨-32602, "Missing 'intent_id' parameter"⟩
    | some _intent_id =>
      let user_confirmed := ((p.get "confirmed").bind Json.asBool).getD false
      let authorized := user_confirmed
      let reason := if authorized then "User confirmed" else "Awaiting user confirmation"
      .ok { authorized, reason, audit_id }

/-- `handle_set_threshold` (api.rs lines 264-292): extract the `threshold`
parameter, reject values outside `[0, 1]` leaving the state unchanged,
otherwise store the new threshold and report success. -/
def handle_set_threshold (params : Option Json) (st : BrainState) :
    Except RpcError Json × BrainState :=
  match params with
  | none => (.error ⟨-32602, "Missing params"⟩, st)
  | some p =>
    match (p.get "threshold").bind Json.asF64 with
    | none => (.error ⟨-32602, "Missing 'threshold' parameter"⟩, st)
    | some threshold =>
      if ¬ (0 ≤ threshold ∧ threshold ≤ 1) then
        (.error ⟨-32602, "Threshold must be between 0.0 and 1.0"⟩, st)
      else
        (.ok (.obj [("success", .bool true), ("threshold", .num threshold)]),
          { st with confidence_threshold := threshold })

/-! ## Concrete fixtures for witnesses -/

/-- A code-capable agent. -/
def demoAgentCode : AgentNode := AgentNode.new 1 "Coder" "test" "test-model" [.CodeGeneration]

/-- A second code-capable agent. -/
def demoAgentCode2 : AgentNode := AgentNode.new 2 "Helper" "test" "test-model" [.CodeGeneration]

/-- A swarm with a single code-capable agent. -/
def demoSwarmOne : AgentSwarm := AgentSwarm.new.register_agent demoAgentCode

/-- A swarm with two code-capable agents. -/
def demoSwarmTwo : AgentSwarm :=
  (AgentSwarm.new.register_agent demoAgentCode).register_agent demoAgentCode2

/-- A swarm whose routing cache already holds an entry for `"code"`. -/
def demoSwarmCached : AgentSwarm :=
  { agents := [demoAgentCode], routing_cache := [("code", 7)], tournament_history := [] }

/-- An agent with a nonzero response-time average. -/
def demoAgentAvg : AgentNode :=
  { demoAgentCode with avg_response_time_ms := 1000 }

/-- Authorize-call parameters whose `intent_id` was never issued by
`parse_intent`. -/
def demoAuthParams : Json := Json.obj [("intent_id", Json.str "no-such-intent")]

/-- One agent, for the discussion counterexample. -/
def demoAgentsOne : List AgentNode := [AgentNode.new 1 "a" "p" "m" []]

/-- Two agents, for the discussion witness. -/
def demoAgentsTwo : List AgentNode := [AgentNode.new 1 "a" "p" "m" [], AgentNode.new 2 "b" "p" "m" []]

/-! ## Helper lemmas -/

/-- The population variance of the voting scores is nonnegative. -/
lemma votingVariance_nonneg (scores : List ℚ) : 0 ≤ votingVariance scores := by
  unfold votingVariance
  apply div_nonneg
  · apply List.sum_nonneg
    intro x hx
    simp only [List.mem_map] at hx
    obtain ⟨s, -, rfl⟩ := hx
    positivity
  · positivity

/-- The source's cache gate `consensus_level > 0.7` (with
`consensus_level = 1 − sqrt variance`) is the rational test
`variance < 9/100`. -/
lemma consensus_gate_iff (v : ℚ) :
    consensusOfVariance v > 7/10 ↔ v < 9/100 := by
  unfold consensusOfVariance
  rw [gt_iff_lt, lt_sub_comm, show (1 : ℝ) - 7/10 = 3/10 by norm_num,
    Real.sqrt_lt' (by norm_num : (0 : ℝ) < 3/10),
    show ((3 : ℝ)/10) ^ 2 = 9/100 by norm_num,
    show ((9 : ℝ)/100) = ((9/100 : ℚ) : ℝ) by norm_num]
  exact Rat.cast_lt

/-- The fold inside `rustMaxBy`, with a `some` accumulator: the result is the
accumulator or a list element, bounds the accumulator key, and bounds every
list element's key. -/
lemma rustMaxBy_go {α : Type} (f : α → ℚ) (l : List α) (m : α) :
    ∃ a, l.foldl
        (fun acc x =>
          match acc with
          | none => some x
          | some m => if f m ≤ f x then some x else some m)
        (some m) = some a ∧
      (a = m ∨ a ∈ l) ∧ f m ≤ f a ∧ ∀ b ∈ l, f b ≤ f a := by
  induction l generalizing m with
  | nil => exact ⟨m, rfl, Or.inl rfl, le_refl _, by simp⟩
  | cons x xs ih =>
    by_cases hx : f m ≤ f x
    · obtain ⟨a, ha, hmem, hge, hall⟩ := ih x
      refine ⟨a, ?_, ?_, le_trans hx hge, ?_⟩
      · simpa [hx] using ha
      · rcases hmem with h | h
        · exact Or.inr (h ▸ List.mem_cons_self x xs)
        · exact Or.inr (List.mem_cons_of_mem x h)
      · intro b hb
        rcases List.mem_cons.mp hb with rfl | h
        · exact hge
        · exact hall b h
    · obtain ⟨a, ha, hmem, hge, hall⟩ := ih m
      refine ⟨a, ?_, ?_, hge, ?_⟩
      · simpa [hx] using ha
      · exact hmem.imp id (List.mem_cons_of_mem x)
      · intro b hb
        rcases List.mem_cons.mp hb with rfl | h
        · exact le_trans (le_of_lt (lt_of_not_le hx)) hge
        · exact hall b h

/-- `rustMaxBy` on a nonempty list returns a member whose key bounds every
member's key (Rust's `Iterator::max_by` under a total order). -/
lemma rustMaxBy_spec {α : Type} (f : α → ℚ) (l : List α) (h : l ≠ []) :
    ∃ a, rustMaxBy f l = some a ∧ a ∈ l ∧ ∀ b ∈ l, f b ≤ f a := by
  cases l with
  | nil => exact absurd rfl h
  | cons x xs =>
    obtain ⟨a, ha, hmem, hge, hall⟩ := rustMaxBy_go f xs x
    refine ⟨a, by simpa [rustMaxBy] using ha, ?_, ?_⟩
    · rcases hmem with rfl | h
      · exact List.mem_cons_self a xs
      · exact List.mem_cons_of_mem x h
    · intro b hb
      rcases List.mem_cons.mp hb with rfl | hmem2
      · exact hge
      · exact hall b hmem2

/-- Dropping the pairs keyed by `k` does not change the lookup of another
key. -/
lemma lookup_filter_key_ne (k k' : String) (c : List (String × Uuid)) (h : k' ≠ k) :
    (c.filter (fun p => p.1 ≠ k)).lookup k' = c.lookup k' := by
  simp only [ne_eq, decide_not]
  induction c with
  | nil => rfl
  | cons p ps ih =>
    rw [List.filter_cons]
    by_cases hp : p.1 = k
    · rw [if_neg (by simp [hp])]
      have hk : (k' == p.1) = false := beq_eq_false_iff_ne.mpr (hp ▸ h)
      rw [ih]
      simp [List.lookup, hk]
    · rw [if_pos (by simp [hp])]
      cases hb : k' == p.1 <;> simp [List.lookup, hb, ih]

/-- Keyed insertion leaves the lookup of every other key unchanged. -/
lemma routingCacheInsert_lookup_ne (k k' : String) (v : Uuid) (c : List (String × Uuid))
    (h : k' ≠ k) : (routingCacheInsert k v c).lookup k' = c.lookup k' := by
  unfold routingCacheInsert
  have hk : (k' == k) = false := beq_eq_false_iff_ne.mpr h
  simp only [List.lookup, hk]
  exact lookup_filter_key_ne k k' c h

/-- One `update_performance` call keeps the success-rate EMA inside `[0,1]`. -/
lemma update_performance_success_rate_mem (a : AgentNode) (s : Bool) (l : ℕ)
    (h0 : 0 ≤ a.success_rate) (h1 : a.success_rate ≤ 1) :
    0 ≤ (a.update_performance s l).success_rate ∧
      (a.update_performance s l).success_rate ≤ 1 := by
  unfold AgentNode.update_performance
  cases s <;> constructor <;> simp <;> nlinarith

/-- After any update sequence from a state with in-range success rate, the
success rate stays in `[0,1]`. -/
lemma applyUpdates_success_rate_mem (updates : List (Bool × ℕ)) (a : AgentNode)
    (h0 : 0 ≤ a.success_rate) (h1 : a.success_rate ≤ 1) :
    0 ≤ (applyUpdates a updates).success_rate ∧
      (applyUpdates a updates).success_rate ≤ 1 := by
  induction updates generalizing a with
  | nil => exact ⟨h0, h1⟩
  | cons u us ih =>
    obtain ⟨g0, g1⟩ := update_performance_success_rate_mem a u.1 u.2 h0 h1
    exact ih (a.update_performance u.1 u.2) g0 g1

/-- After at least one update the confidence score equals the success rate. -/
lemma applyUpdates_confidence_eq (updates : List (Bool × ℕ)) (a : AgentNode)
    (h : updates ≠ []) :
    (applyUpdates a updates).confidence_score = (applyUpdates a updates).success_rate := by
  induction updates generalizing a with
  | nil => exact absurd rfl h
  | cons u us ih =>
    cases us with
    | nil => rfl
    | cons v vs => exact ih (a.update_performance u.1 u.2) (by simp)

/-- A successful tournament's routing cache is the old one with the
`(task_type, winner)` entry inserted exactly when the voting-score variance
passes the gate `variance < 9/100`. -/
lemma tournament_routing_cache (s : AgentSwarm) (task task_type : String)
    (invoke : AgentNode → String → String) (critique : String → String → ℚ)
    (elapsed : Uuid → ℕ) (p : AgentSwarm × TournamentResult)
    (h : s.tournament task task_type invoke critique elapsed = .ok p) :
    p.1.routing_cache =
      if p.2.variance < 9/100 then
        routingCacheInsert task_type p.2.winner.agent_id s.routing_cache
      else s.routing_cache := by
  simp only [AgentSwarm.tournament] at h
  split at h
  · exact absurd h (by simp)
  · split at h
    · exact absurd h (by simp)
    · rw [Except.ok.injEq] at h
      subst h
      rfl

/-! ## Claim theorems -/

/-- Claim C1: for every intent and every threshold `t`, the authorization
gate of `handle_parse_intent` requires confirmation iff the intent's
confidence is strictly below `t`; at `confidence = t` no confirmation is
required. -/
theorem authorize_gate_iff_strictly_below :
    ∀ (text : String) (st : BrainState),
      ((handle_parse_intent text st).requires_confirmation = true ↔
        (IntentParser.parse text).confidence < st.confidence_threshold) ∧
      ∀ t : ℚ, requiresConfirmation t t = false := by
  intro text st
  constructor
  · simp [handle_parse_intent, requiresConfirmation]
  · intro t
    simp [requiresConfirmation]

/-- Claim C2, counterexample: `"wipe all data immediately"` classifies with
confidence exactly 0.95, equal to the default threshold 0.95, so the gate
reports `requires_confirmation = false` — not `true` as claimed. -/
theorem wipe_scenario_counterexample :
    (IntentParser.parse "wipe all data immediately").confidence = 19/20 ∧
    BrainState.new.confidence_threshold = 19/20 ∧
    requiresConfirmation (IntentParser.parse "wipe all data immediately").confidence
      BrainState.new.confidence_threshold = false := by
  refine ⟨?_, ?_, ?_⟩ <;> with_unfolding_all decide

/-- Claim C2, amended: `"wipe all data immediately"` classifies as
`Security`/`"data_destruction"` with confidence at least 0.9 (exactly 0.95),
and under the default threshold 0.95 the gate does not require confirmation,
since the confidence equals the threshold. -/
theorem wipe_scenario :
    (handle_parse_intent "wipe all data immediately" BrainState.new).category = .Security ∧
    (handle_parse_intent "wipe all data immediately" BrainState.new).action = "data_destruction" ∧
    (9/10 : ℚ) ≤ (handle_parse_intent "wipe all data immediately" BrainState.new).confidence ∧
    (handle_parse_intent "wipe all data immediately" BrainState.new).requires_confirmation
      = false := by
  refine ⟨?_, ?_, ?_, ?_⟩ <;> with_unfolding_all decide

/-- Claim C5: for every update sequence applied to a freshly registered
agent, `success_rate` and `confidence_score` stay in `[0,1]`, and after every
call (a nonempty sequence) the confidence score equals the success rate. -/
theorem success_rate_bounds_and_confidence :
    ∀ (updates : List (Bool × ℕ)) (id : Uuid) (name provider model : String)
      (caps : List AgentCapability),
      (0 ≤ (applyUpdates (AgentNode.new id name provider model caps) updates).success_rate ∧
        (applyUpdates (AgentNode.new id name provider model caps) updates).success_rate ≤ 1 ∧
        0 ≤ (applyUpdates (AgentNode.new id name provider model caps) updates).confidence_score ∧
        (applyUpdates (AgentNode.new id name provider model caps) updates).confidence_score ≤ 1) ∧
      (updates ≠ [] →
        (applyUpdates (AgentNode.new id name provider model caps) updates).confidence_score =
          (applyUpdates (AgentNode.new id name provider model caps) updates).success_rate) := by
  intro updates id name provider model caps
  have hsr := applyUpdates_success_rate_mem updates (AgentNode.new id name provider model caps)
    (by norm_num [AgentNode.new]) (by norm_num [AgentNode.new])
  refine ⟨⟨hsr.1, hsr.2, ?_, ?_⟩, fun h => applyUpdates_confidence_eq updates _ h⟩ <;>
    cases updates with
  | nil => norm_num [applyUpdates, AgentNode.new]
  | cons u us =>
    rw [applyUpdates_confidence_eq (u :: us) _ (by simp)]
    first
    | exact hsr.1
    | exact hsr.2

/-- Claim C5, witness at the update sequence `[(true, 5)]`. -/
theorem success_rate_bounds_witness :
    (applyUpdates (AgentNode.new 0 "a" "p" "m" []) [(true, 5)]).confidence_score =
      (applyUpdates (AgentNode.new 0 "a" "p" "m" []) [(true, 5)]).success_rate :=
  (success_rate_bounds_and_confidence [(true, 5)] 0 "a" "p" "m" []).2 (by simp)

/-- Claim C8, counterexample: after a first update with latency 0 the stored
average is 0, so a second update with latency 100 stores 100 — the code
re-enters the first-update branch whenever the stored average is 0 — while
the claimed EMA `0.9 × 0 + 0.1 × 100` is 10. -/
theorem avg_response_time_counterexample :
    ((AgentNode.new 0 "a" "p" "m" []).update_performance true 0).avg_response_time_ms = 0 ∧
    (((AgentNode.new 0 "a" "p" "m" []).update_performance true 0).update_performance
      true 100).avg_response_time_ms = 100 ∧
    (9/10 : ℚ) * 0 + (1/10 : ℚ) * 100 = 10 ∧
    (100 : ℚ) ≠ 10 := by
  refine ⟨?_, ?_, by norm_num, by norm_num⟩ <;> with_unfolding_all decide

/-- Claim C8, amended: `update_performance` sets `avg_response_time_ms` to
the latency whenever the stored average is 0 (in particular on the first call
after registration), and otherwise to the `u64` truncation of
`0.9 × previous + 0.1 × latency`, i.e. `⌊(9·previous + latency) / 10⌋`. -/
theorem avg_response_time_update :
    ∀ (a : AgentNode) (success : Bool) (latency : ℕ),
      (a.avg_response_time_ms = 0 →
        (a.update_performance success latency).avg_response_time_ms = latency) ∧
      (a.avg_response_time_ms ≠ 0 →
        (a.update_performance success latency).avg_response_time_ms =
          (9 * a.avg_response_time_ms + latency) / 10) := by
  intro a success latency
  constructor
  · intro h
    simp [AgentNode.update_performance, h]
  · intro h
    simp only [AgentNode.update_performance, if_neg h]
    have : (a.avg_response_time_ms : ℚ) * (9/10) + (latency : ℚ) * (1/10) =
        ((9 * a.avg_response_time_ms + latency : ℕ) : ℚ) / ((10 : ℕ) : ℚ) := by
      push_cast
      ring
    rw [this, Nat.floor_div_nat, Nat.floor_natCast]

/-- Claim C8, witness at an agent with stored average 1000 and latency 5:
the new average is `⌊(9·1000 + 5)/10⌋ = 900`, not `900.5`. -/
theorem avg_response_time_update_witness :
    (demoAgentAvg.update_performance true 5).avg_response_time_ms =
      (9 * demoAgentAvg.avg_response_time_ms + 5) / 10 :=
  (avg_response_time_update demoAgentAvg true 5).2 (by decide)

/-- Claim C7: `handle_set_threshold` succeeds and stores the requested value
iff it lies in `[0,1]`; out-of-range requests produce an error and leave the
state unchanged. -/
theorem set_threshold_range :
    ∀ (v : ℚ) (st : BrainState),
      (0 ≤ v → v ≤ 1 →
        handle_set_threshold (some (Json.obj [("threshold", Json.num v)])) st =
          (.ok (.obj [("success", .bool true), ("threshold", .num v)]),
            { st with confidence_threshold := v })) ∧
      (¬ (0 ≤ v ∧ v ≤ 1) →
        (handle_set_threshold (some (Json.obj [("threshold", Json.num v)])) st).1 =
          .error ⟨-32602, "Threshold must be between 0.0 and 1.0"⟩ ∧
        (handle_set_threshold (some (Json.obj [("threshold", Json.num v)])) st).2 = st) := by
  intro v st
  constructor
  · intro h0 h1
    simp [handle_set_threshold, Json.get, Json.asF64, List.find?, h0, h1]
  · intro h
    rw [show handle_set_threshold (some (Json.obj [("threshold", Json.num v)])) st =
        (.error ⟨-32602, "Threshold must be between 0.0 and 1.0"⟩, st) by
      simp [handle_set_threshold, Json.get, Json.asF64, List.find?, h]]
    exact ⟨rfl, rfl⟩

/-- Claim C7, witness: setting the threshold to 1/2 succeeds and stores it. -/
theorem set_threshold_range_witness :
    handle_set_threshold (some (Json.obj [("threshold", Json.num (1/2))])) BrainState.new =
      (.ok (.obj [("success", .bool true), ("threshold", .num (1/2))]),
        { BrainState.new with confidence_threshold := 1/2 }) :=
  (set_threshold_range (1/2) BrainState.new).1 (by norm_num) (by norm_num)

/-- Claim C10: with any `intent_id` string present, `handle_authorize`
succeeds, `authorized` is the `confirmed` boolean parameter defaulting to
`false`, and the result does not depend on the `intent_id` value — the id is
never looked up. -/
theorem authorize_ignores_intent_id :
    ∀ (p : Json) (audit_id intent_id : String),
      (p.get "intent_id").bind Json.asStr = some intent_id →
      (handle_authorize (some p) audit_id =
        .ok { authorized := ((p.get "confirmed").bind Json.asBool).getD false
              reason :=
                if ((p.get "confirmed").bind Json.asBool).getD false then "User confirmed"
                else "Awaiting user confirmation"
              audit_id := audit_id }) ∧
      ∀ (q : Json) (other_id : String),
        (q.get "intent_id").bind Json.asStr = some other_id →
        q.get "confirmed" = p.get "confirmed" →
        handle_authorize (some q) audit_id = handle_authorize (some p) audit_id := by
  intro p audit_id intent_id h
  constructor
  · simp [handle_authorize, h]
  · intro q other_id hq hc
    simp [handle_authorize, h, hq, hc]

/-- Claim C10, witness: an `intent_id` that was never issued, with no
`confirmed` parameter, is accepted and not authorized. -/
theorem authorize_ignores_intent_id_witness :
    handle_authorize (some demoAuthParams) "audit-1" =
      .ok { authorized := false, reason := "Awaiting user confirmation", audit_id := "audit-1" } :=
  (authorize_ignores_intent_id demoAuthParams "audit-1" "no-such-intent" rfl).1

/-- Claim C6: `route_task` returns a cached entry unconditionally; with no
cache entry it returns `none` when no agent is capable, and otherwise a
capable agent maximizing `confidence_score × (1 − avg_response_time/10000)`. -/
theorem route_task_cache_first :
    ∀ (s : AgentSwarm) (task_type : String),
      (∀ id, s.routing_cache.lookup task_type = some id →
        s.route_task task_type = some id) ∧
      (s.routing_cache.lookup task_type = none → s.capableAgents task_type = [] →
        s.route_task task_type = none) ∧
      (s.routing_cache.lookup task_type = none → s.capableAgents task_type ≠ [] →
        ∃ a, a ∈ s.capableAgents task_type ∧ s.route_task task_type = some a.id ∧
          ∀ b ∈ s.capableAgents task_type, routeScore b ≤ routeScore a) := by
  intro s task_type
  refine ⟨fun id h => ?_, fun h hcap => ?_, fun h hcap => ?_⟩
  · simp [AgentSwarm.route_task, h]
  · simp [AgentSwarm.route_task, h, hcap, rustMaxBy]
  · obtain ⟨a, ha, hmem, hall⟩ := rustMaxBy_spec routeScore _ hcap
    exact ⟨a, hmem, by simp [AgentSwarm.route_task, h, ha], hall⟩

/-- Claim C6, witness: a cached `"code"` entry is returned as-is, even though
the cached id 7 is no registered agent at all. -/
theorem route_task_cache_first_witness :
    demoSwarmCached.route_task "code" = some 7 :=
  (route_task_cache_first demoSwarmCached "code").1 7 rfl

/-- Claim C4: a tournament whose capable set is exactly one agent succeeds,
gives that agent the (unnormalized) voting score 0 — the division by `n−1`
is skipped at `n = 1` — and a well-defined consensus level of exactly 1, and
selects that agent's response as the winner. -/
theorem tournament_single_agent :
    ∀ (s : AgentSwarm) (task task_type : String)
      (invoke : AgentNode → String → String) (critique : String → String → ℚ)
      (elapsed : Uuid → ℕ) (a : AgentNode),
      s.capableAgents task_type = [a] →
      ∃ p, s.tournament task task_type invoke critique elapsed = .ok p ∧
        p.2.winner.agent_id = a.id ∧
        p.2.voting_scores = [(a.id, 0)] ∧
        p.2.consensus_level = 1 := by
  intro s task task_type invoke critique elapsed a hcap
  simp only [AgentSwarm.tournament, hcap]
  norm_num [rustMaxBy, votingVariance, TournamentResult.consensus_level, consensusOfVariance]

/-- Claim C4, witness: a swarm holding one code-capable agent. -/
theorem tournament_single_agent_witness :
    ∃ p, demoSwarmOne.tournament "t" "code" invoke_agent critique_response (fun _ => 5) =
        .ok p ∧
      p.2.winner.agent_id = demoAgentCode.id ∧
      p.2.voting_scores = [(demoAgentCode.id, 0)] ∧
      p.2.consensus_level = 1 :=
  tournament_single_agent demoSwarmOne "t" "code" invoke_agent critique_response (fun _ => 5)
    demoAgentCode (by with_unfolding_all decide)

/-- Claim C3: a tournament writes `(task_type → winner)` to the routing cache
iff its consensus level strictly exceeds 0.7 (hence no write at exactly 0.7),
leaves the cache untouched otherwise, never disturbs other task types'
entries, and registration never touches the cache. -/
theorem tournament_cache_write_iff :
    (∀ (s : AgentSwarm) (task task_type : String)
      (invoke : AgentNode → String → String) (critique : String → String → ℚ)
      (elapsed : Uuid → ℕ) (p : AgentSwarm × TournamentResult),
      s.tournament task task_type invoke critique elapsed = .ok p →
      (p.2.consensus_level > 7/10 →
        p.1.routing_cache = routingCacheInsert task_type p.2.winner.agent_id s.routing_cache) ∧
      (p.2.consensus_level ≤ 7/10 → p.1.routing_cache = s.routing_cache) ∧
      (∀ k, k ≠ task_type → p.1.routing_cache.lookup k = s.routing_cache.lookup k)) ∧
    (∀ (s : AgentSwarm) (a : AgentNode),
      (s.register_agent a).routing_cache = s.routing_cache) := by
  constructor
  · intro s task task_type invoke critique elapsed p h
    have hcache := tournament_routing_cache s task task_type invoke critique elapsed p h
    refine ⟨fun hcons => ?_, fun hcons => ?_, fun k hk => ?_⟩
    · rw [TournamentResult.consensus_level, consensus_gate_iff] at hcons
      rw [hcache, if_pos hcons]
    · rw [TournamentResult.consensus_level] at hcons
      have hng : ¬ (p.2.variance < 9/100) :=
        fun hlt => absurd ((consensus_gate_iff _).mpr hlt) (not_lt.mpr hcons)
      rw [hcache, if_neg hng]
    · rw [hcache]
      split
      · exact routingCacheInsert_lookup_ne _ _ _ _ hk
      · rfl
  · intro s a
    rfl

/-- Claim C3, witness: with the source's constant critique stub both agents
score 0.8, the variance is 0, the consensus level is 1 > 0.7, and the cache
entry for `"code"` is written. -/
theorem tournament_cache_write_witness :
    ∃ p, demoSwarmTwo.tournament "t" "code" invoke_agent critique_response (fun _ => 5) =
        .ok p ∧
      p.1.routing_cache =
        routingCacheInsert "code" p.2.winner.agent_id demoSwarmTwo.routing_cache := by
  have hok : (demoSwarmTwo.tournament "t" "code" invoke_agent critique_response
      (fun _ => 5)).isOk = true := by
    with_unfolding_all decide
  obtain ⟨p, hp⟩ : ∃ p, demoSwarmTwo.tournament "t" "code" invoke_agent critique_response
      (fun _ => 5) = .ok p := by
    cases htour : demoSwarmTwo.tournament "t" "code" invoke_agent critique_response
      (fun _ => 5) with
    | error e => rw [htour] at hok; exact Bool.noConfusion hok
    | ok q => exact ⟨q, rfl⟩
  have hvar : p.2.variance = 0 := by
    have h2 : (demoSwarmTwo.tournament "t" "code" invoke_agent critique_response
        (fun _ => 5)).toOption.map (fun q => q.2.variance) = some 0 := by
      with_unfolding_all decide
    rw [hp] at h2
    simpa [Except.toOption] using h2
  have hcons : p.2.consensus_level > 7/10 := by
    rw [TournamentResult.consensus_level, hvar, consensus_gate_iff]
    norm_num
  exact ⟨p, hp, (tournament_cache_write_iff.1 demoSwarmTwo "t" "code" invoke_agent
    critique_response (fun _ => 5) p hp).1 hcons⟩

/-- Claim C9, counterexample: with one agent and constant replies, the two
most recent transcript entries after the second round are identical (length
difference 0 < 50), yet a third round still runs, because `has_converged`
returns `false` for transcripts shorter than 4 entries. -/
theorem discussion_no_halt_counterexample :
    (doRound demoAgentsOne (fun _ _ => "x") 3 1
        (doRound demoAgentsOne (fun _ _ => "x") 3 0 ("", []))).2 = ["a: x", "a: x"] ∧
    natAbsDiff ("a: x").length ("a: x").length < 50 ∧
    (discussion demoAgentsOne (fun _ _ => "x") 3).2.length = 3 := by
  refine ⟨?_, ?_, ?_⟩ <;> decide

/-- Claim C9, amended: after every completed round beyond the first, if the
transcript has at least 4 entries and the two most recent entries' text
lengths differ by fewer than 50 (`has_converged`), the discussion halts and
runs no further rounds. -/
theorem discussion_converged_halts :
    ∀ (agents : List AgentNode) (invoke : AgentNode → String → String)
      (max_rounds remaining round : ℕ) (st : String × List String),
      1 ≤ round →
      hasConverged (doRound agents invoke max_rounds round st).2 = true →
      discussionAux agents invoke max_rounds (remaining + 1) round st =
        doRound agents invoke max_rounds round st := by
  intro agents invoke max_rounds remaining round st h1 h2
  simp only [discussionAux]
  rw [if_pos ⟨h1, h2⟩]

/-- Claim C9, witness: two agents whose round-1 replies converge halt the
discussion with two rounds still available. -/
theorem discussion_converged_halts_witness :
    discussionAux demoAgentsTwo (fun _ _ => "ok") 3 2 1 ("s", ["e1", "e2"]) =
      doRound demoAgentsTwo (fun _ _ => "ok") 3 1 ("s", ["e1", "e2"]) :=
  discussion_converged_halts demoAgentsTwo (fun _ _ => "ok") 3 1 1 ("s", ["e1", "e2"])
    (by decide) (by decide)
